import Mathlib

/-!
Shallow embedding of `datasette/database.py` (class `Database`) and proofs
about its behaviour.

The SQLite engine, the filesystem and the host application (`self.ds`) are
external collaborators: they enter the model as explicit inputs (engine
outcomes, configuration records, function-valued filesystem fields).  The
`Database` methods themselves are translated statement by statement.
-/

set_option linter.unusedVariables false

namespace Datasette

/-- A row as returned by the engine: a tuple of values (modelled as integers,
which is all the claims need). -/
abbrev Row := List Int

/-- Named SQL parameters, `None` when the caller passed none
(Python `params=None`). -/
abbrev Params := Option (List (String × String))

/-- An engine-reported error of the caught classes
(`sqlite3.OperationalError` / `sqlite3.DatabaseError`); `args` models the
exception's `args` tuple. -/
structure EngineError where
  args : List String
deriving DecidableEq, Repr

/-- Errors that can escape the translated methods.
`queryInterrupted` is *modelled from the spec*: the `QueryInterrupted` class
lives in `datasette/utils.py`, which is not part of the sources; the spec says
it "carries original engine error, SQL, parameters", matching the raise site
`QueryInterrupted(e, sql, params)` in `database.py`.
`typeError` stands for Python's `TypeError` (e.g. `Path(None)`),
`indexError` for `IndexError` (subscripting an empty list). -/
inductive PyError where
  | queryInterrupted (e : EngineError) (sql : String) (params : Params)
  | engineError (e : EngineError)
  | typeError
  | indexError
deriving DecidableEq, Repr

/-- Outcome of handing a SQL statement to the engine: either the full row
stream plus the cursor's column description, or a raised engine error. -/
inductive EngineResult where
  | ok (rows : List Row) (description : List String)
  | err (e : EngineError)
deriving DecidableEq, Repr

/-- *Modelled from the spec*: the `Results` class lives in
`datasette/utils.py` (not in the sources); per the spec a result exposes
"row tuples, column descriptors, and the truncated flag". -/
structure Results where
  rows : List Row
  truncated : Bool
  description : List String
deriving DecidableEq, Repr

/-- The configuration values `execute` reads from the host application
(`self.ds`). -/
structure DSConfig where
  sql_time_limit_ms : Nat
  max_returned_rows : Nat
  page_size : Nat
deriving DecidableEq, Repr

/-- Step 1 of `execute`: `time_limit_ms = self.ds.sql_time_limit_ms`, lowered
to `custom_time_limit` when that is truthy and smaller. -/
def effective_time_limit (ds : DSConfig) (custom_time_limit : Option Nat) : Nat :=
  match custom_time_limit with
  | some c => if c ≠ 0 ∧ c < ds.sql_time_limit_ms then c else ds.sql_time_limit_ms
  | none => ds.sql_time_limit_ms

/-- `Database.execute` (the observable part of `sql_operation_in_thread`).
The engine's behaviour under the armed time limit is the `engine` input:
`.err e` models `cursor.execute`/fetch raising, `.ok rows desc` models a
cursor whose full row stream is `rows`, so `fetchmany(n)` is `rows.take n`
and `fetchall()` is `rows`. -/
def execute (ds : DSConfig) (sql : String) (params : Params) (truncate : Bool)
    (custom_time_limit : Option Nat) (page_size : Option Nat)
    (engine : EngineResult) : Except PyError Results :=
  -- page_size = page_size or self.ds.page_size  (0/None falsy)
  let page_size : Nat :=
    match page_size with
    | some p => if p = 0 then ds.page_size else p
    | none => ds.page_size
  match engine with
  | .err e =>
    if e.args = ["interrupted"] then
      .error (.queryInterrupted e sql params)
    else
      -- optionally logged (log_sql_errors), then re-raised as-is
      .error (.engineError e)
  | .ok allRows description =>
    let max_returned_rows := ds.max_returned_rows
    let max_returned_rows :=
      if max_returned_rows = page_size then max_returned_rows + 1
      else max_returned_rows
    if max_returned_rows ≠ 0 ∧ truncate then
      let rows := allRows.take (max_returned_rows + 1)
      let truncated : Bool := decide (rows.length > max_returned_rows)
      let rows := rows.take max_returned_rows
      .ok ⟨rows, truncated, description⟩
    else
      .ok ⟨allRows, false, description⟩

/-- The external filesystem and path library, as function-valued inputs.
`inspect_hash` is *modelled from the spec*: `datasette.inspect.inspect_hash`
is not in the sources; per the spec the content hash is "computed once from
the file bytes", i.e. a pure function of the path's contents.  `st_size` is
`Path(p).stat().st_size`, `stem` is `Path(p).stem`. -/
structure FileSystem where
  inspect_hash : String → String
  st_size : String → Nat
  stem : String → String

/-- The part of the host application (`self.ds`) read by `__init__`:
`inspect_data` is the optional precomputed
`{database: {tables: {table: {"count": n}}}}` snapshot, modelled as nested
association lists keeping only the `count` field. -/
structure DSContext where
  inspect_data : Option (List (String × List (String × Int)))

/-- The state of a `Database` handle: constructor arguments plus the three
cache fields (`self.hash`, `self.cached_size`, `self.cached_table_counts`). -/
structure Database where
  path : Option String
  is_mutable : Bool
  is_memory : Bool
  hash : Option String
  cached_size : Option Nat
  cached_table_counts : Option (List (String × Option Int))
deriving DecidableEq, Repr

/-- The `name` property: `":memory:"` for memory databases, otherwise
`Path(self.path).stem` (raising `TypeError` when `path` is `None`). -/
def Database.name (fs : FileSystem) (db : Database) : Except PyError String :=
  if db.is_memory then .ok ":memory:"
  else
    match db.path with
    | some p => .ok (fs.stem p)
    | none => .error .typeError

/-- `Database.__init__`.  The three cache fields start as `None`; when the
database is not mutable the code unconditionally builds `Path(path)`
(a `TypeError` when `path is None`), stores the inspect hash and the file
size, and seeds `cached_table_counts` from `ds.inspect_data` when that dict
is truthy and has a truthy entry for `self.name`. -/
def Database.init (ctx : DSContext) (fs : FileSystem) (path : Option String)
    (is_mutable : Bool) (is_memory : Bool) : Except PyError Database :=
  if is_mutable then
    .ok ⟨path, is_mutable, is_memory, none, none, none⟩
  else
    match path with
    | none => .error .typeError
    | some p =>
      let name := if is_memory then ":memory:" else fs.stem p
      let cached_table_counts : Option (List (String × Option Int)) :=
        match ctx.inspect_data with
        | none => none
        | some d =>
          if d ≠ [] ∧ ((d.lookup name).getD [] ≠ []) then
            some (((d.lookup name).getD []).map (fun kv => (kv.1, some kv.2)))
          else none
      .ok ⟨path, is_mutable, is_memory, some (fs.inspect_hash p),
        some (fs.st_size p), cached_table_counts⟩

/-- What `Database.connect` asks of the engine: a fresh private in-memory
database, or a file URI. -/
inductive Connection where
  | memory
  | file (uri : String)
deriving DecidableEq, Repr

/-- `Database.connect`: memory databases open `":memory:"`; file databases
open `file:{path}?{qs}` with `qs = "mode=ro"` when mutable and
`qs = "immutable=1"` otherwise (Python formats a `None` path as `"None"`). -/
def Database.connect (db : Database) : Connection :=
  if db.is_memory then .memory
  else
    let qs := if db.is_mutable then "mode=ro" else "immutable=1"
    .file ("file:" ++ (match db.path with | some p => p | none => "None") ++ "?" ++ qs)

/-- The `size` property: `0` for memory databases, the cached size when
present, otherwise a fresh `Path(self.path).stat().st_size`. -/
def Database.size (fs : FileSystem) (db : Database) : Except PyError Nat :=
  if db.is_memory then .ok 0
  else
    match db.cached_size with
    | some s => .ok s
    | none =>
      match db.path with
      | some p => .ok (fs.st_size p)
      | none => .error .typeError

/-- The SQL text `table_counts` builds for one table. -/
def count_sql (table : String) : String :=
  "select count(*) from [" ++ table ++ "]"

/-- The `for table in await self.table_names()` loop of `table_counts`:
per table, run the count query through `execute` with
`custom_time_limit=limit`; `QueryInterrupted` and the two engine error
classes are caught and record `None`; `.rows[0][0]` on a well-formed result
yields the count, and raises `IndexError` (uncaught) otherwise. -/
def table_counts_loop (ds : DSConfig) (limit : Nat)
    (outcomes : String → EngineResult) (tables : List String)
    (acc : List (String × Option Int)) :
    Except PyError (List (String × Option Int)) :=
  match tables with
  | [] => .ok acc
  | t :: rest =>
    match execute ds (count_sql t) none false (some limit) none (outcomes t) with
    | .error (.queryInterrupted _ _ _) =>
      table_counts_loop ds limit outcomes rest (acc ++ [(t, none)])
    | .error (.engineError _) =>
      table_counts_loop ds limit outcomes rest (acc ++ [(t, none)])
    | .error e => .error e
    | .ok res =>
      match res.rows.head?.bind (fun r => r.head?) with
      | some n => table_counts_loop ds limit outcomes rest (acc ++ [(t, some n)])
      | none => .error .indexError

/-- `Database.table_counts(limit=10)`.  `tables` is the result of
`await self.table_names()` and `outcomes t` the engine's behaviour on the
count query for `t`.  Returns the counts map together with the
(possibly updated) handle, since the method assigns
`self.cached_table_counts` for non-mutable databases. -/
def Database.table_counts (db : Database) (ds : DSConfig) (limit : Nat)
    (tables : List String) (outcomes : String → EngineResult) :
    Except PyError (List (String × Option Int) × Database) :=
  if db.is_mutable = false ∧ db.cached_table_counts ≠ none then
    .ok (db.cached_table_counts.getD [], db)
  else
    match table_counts_loop ds limit outcomes tables [] with
    | .error e => .error e
    | .ok counts =>
      if db.is_mutable = false then
        .ok (counts, { db with cached_table_counts := some counts })
      else
        .ok (counts, db)

/-- `Database.label_column_for_table`.  `explicit_label_column` is the
externally configured override (`self.ds.table_metadata(...)`, truthy check:
a present empty string is falsy), `column_names` the table's columns in
order.  Mirrors the Python: first name/title hit in column order; the
two-column id/pk rule subscripts a filtered list with `[0]`, an `IndexError`
when that list is empty. -/
def label_column_for_table (explicit_label_column : Option String)
    (column_names : List String) : Except PyError (Option String) :=
  if explicit_label_column.getD "" ≠ "" then
    .ok explicit_label_column
  else
    let name_or_title := column_names.filter (fun c => c == "name" || c == "title")
    match name_or_title.head? with
    | some c => .ok (some c)
    | none =>
      if column_names ≠ [] ∧ column_names.length = 2 ∧
          ("id" ∈ column_names ∨ "pk" ∈ column_names) then
        match (column_names.filter (fun c => !(c == "id" || c == "pk"))).head? with
        | some c => .ok (some c)
        | none => .error .indexError
      else
        .ok none

/-- Python's `str.startswith`: `pre` is a (string) prefix of `s`. -/
def startswith (s pre : String) : Bool :=
  decide (pre.toList <+: s.toList)

/-- One iteration of the outer prefix-propagation loop of
`hidden_table_names`: the inner loop walks a snapshot `hidden_tables[:]` of
the current list and appends `table_name` once for every snapshot entry it
starts with (the `continue` only ends the inner iteration). -/
def process_table (table_name : String) (hidden : List String) : List String :=
  hidden ++ (hidden.filter (fun h => startswith table_name h)).map (fun _ => table_name)

/-- The full prefix-propagation pass: the outer loop over
`await self.table_names()`, threading the growing `hidden_tables` list. -/
def hidden_pass (table_names : List String) (hidden : List String) : List String :=
  table_names.foldl (fun acc t => process_table t acc) hidden

/-- The fixed Spatialite internal table names hard-coded in
`hidden_table_names`. -/
def spatialite_internal_tables : List String :=
  ["ElementaryGeometries", "SpatialIndex", "geometry_columns",
   "spatial_ref_sys", "spatialite_history", "sql_statements_log",
   "sqlite_sequence", "views_geometry_columns", "virts_geometry_columns"]

/-- `Database.hidden_table_names`.  The catalog queries are inputs:
`fts_hidden` is the result of the `VIRTUAL TABLE ... USING FTS` query,
`has_spatialite` the detection probe, `idx_tables` the `idx_%` catalog
query, `metadata_hidden` the tables flagged hidden in external metadata, and
`table_names` the result of `await self.table_names()`. -/
def hidden_table_names (fts_hidden : List String) (has_spatialite : Bool)
    (idx_tables : List String) (metadata_hidden : List String)
    (table_names : List String) : List String :=
  let hidden_tables := fts_hidden
  let hidden_tables :=
    if has_spatialite then hidden_tables ++ spatialite_internal_tables ++ idx_tables
    else hidden_tables
  let hidden_tables := hidden_tables ++ metadata_hidden
  hidden_pass table_names hidden_tables

/-- `Database.get_table_definition`.  `table_definition_rows` is the result
of the `name = :n and type = :t` catalog query (first column of each row;
a stored NULL is `none` and makes `rows[0][0] + ";"` a `TypeError`),
`index_rows` the result of the `tbl_name = :n and type='index' and sql is
not null` query in catalog order (non-null by the query). -/
def get_table_definition (table_definition_rows : List (Option String))
    (index_rows : List String) : Except PyError (Option String) :=
  match table_definition_rows with
  | [] => .ok none
  | first :: _ =>
    match first with
    | none => .error .typeError
    | some sql =>
      let bits := (sql ++ ";") :: index_rows.map (fun s => s ++ ";")
      .ok (some (String.intercalate "\n" bits))

/-- The internal row cap of `execute`: the configured maximum, bumped by one
when it equals the effective page size (lines 90-92 of `database.py`). -/
def effective_cap (m page_size : Nat) : Nat :=
  if m = page_size then m + 1 else m

/-! ### Helper lemmas -/

theorem startswith_iff {s pre : String} :
    startswith s pre = true ↔ pre.toList <+: s.toList := by
  simp [startswith]

theorem startswith_trans {a b c : String} (h1 : startswith b a = true)
    (h2 : startswith c b = true) : startswith c a = true :=
  startswith_iff.mpr ((startswith_iff.mp h1).trans (startswith_iff.mp h2))

theorem mem_process_table {x t : String} {hidden : List String} :
    x ∈ process_table t hidden ↔
      x ∈ hidden ∨ (x = t ∧ ∃ h ∈ hidden, startswith t h = true) := by
  simp only [process_table, List.mem_append, List.mem_map, List.mem_filter]
  constructor
  · rintro (hx | ⟨a, ⟨ha, hsw⟩, rfl⟩)
    · exact Or.inl hx
    · exact Or.inr ⟨rfl, a, ha, hsw⟩
  · rintro (hx | ⟨rfl, a, ha, hsw⟩)
    · exact Or.inl hx
    · exact Or.inr ⟨a, ⟨ha, hsw⟩, rfl⟩

theorem exists_startswith_process_table {t n : String} {hidden : List String} :
    (∃ h ∈ process_table n hidden, startswith t h = true) ↔
      (∃ h ∈ hidden, startswith t h = true) ∨
        (startswith t n = true ∧ ∃ h ∈ hidden, startswith n h = true) := by
  constructor
  · rintro ⟨h, hmem, hsw⟩
    rcases mem_process_table.mp hmem with hh | ⟨rfl, hex⟩
    · exact Or.inl ⟨h, hh, hsw⟩
    · exact Or.inr ⟨hsw, hex⟩
  · rintro (⟨h, hh, hsw⟩ | ⟨hsw, h, hh, hsn⟩)
    · exact ⟨h, mem_process_table.mpr (Or.inl hh), hsw⟩
    · exact ⟨h, mem_process_table.mpr (Or.inl hh), startswith_trans hsn hsw⟩

/-- Membership in the prefix-propagation pass: because the string-prefix
relation is transitive, a single pass over the table names already adds
exactly the tables that start with some *initially* hidden name — nothing
reachable only through a chain of intermediate tables is ever added, and
nothing such exists. -/
theorem mem_hidden_pass {t : String} {names init : List String} :
    t ∈ hidden_pass names init ↔
      t ∈ init ∨ (t ∈ names ∧ ∃ h ∈ init, startswith t h = true) := by
  induction names generalizing init with
  | nil => simp [hidden_pass]
  | cons n ns ih =>
    have hstep : hidden_pass (n :: ns) init = hidden_pass ns (process_table n init) := rfl
    rw [hstep, ih]
    constructor
    · rintro (hP | ⟨hC, hD⟩)
      · rcases mem_process_table.mp hP with hA | ⟨rfl, hex⟩
        · exact Or.inl hA
        · exact Or.inr ⟨List.mem_cons_self t ns, hex⟩
      · rcases exists_startswith_process_table.mp hD with hD0 | ⟨hsw, h, hh, hsn⟩
        · exact Or.inr ⟨List.mem_cons_of_mem n hC, hD0⟩
        · exact Or.inr ⟨List.mem_cons_of_mem n hC, h, hh, startswith_trans hsn hsw⟩
    · rintro (hA | ⟨hmem, hD⟩)
      · exact Or.inl (mem_process_table.mpr (Or.inl hA))
      · rcases List.mem_cons.mp hmem with rfl | hC
        · exact Or.inl (mem_process_table.mpr (Or.inr ⟨rfl, hD⟩))
        · exact Or.inr ⟨hC, exists_startswith_process_table.mpr (Or.inl hD)⟩

/-! ### Claim theorems -/

/-- C4: the prefix-propagation step of `hidden_table_names` is a single
additional pass over all table names that adds exactly the tables starting
with the name of an already-hidden table — membership in the result is
membership in the initially hidden list, or being a table name that starts
with an initially hidden name (no multi-level chain contributes anything
beyond this one level).  In particular, for a catalog with tables `docs`,
`docs_fts` and `docs_fts_content` where the FTS query hides `docs_fts`, the
result contains `docs_fts` and `docs_fts_content` but not `docs`. -/
theorem hidden_pass_single_level :
    (∀ (t : String) (names init : List String),
      t ∈ hidden_pass names init ↔
        t ∈ init ∨ (t ∈ names ∧ ∃ h ∈ init, startswith t h = true)) ∧
    ("docs_fts" ∈
        hidden_table_names ["docs_fts"] false [] []
          ["docs", "docs_fts", "docs_fts_content"] ∧
      "docs_fts_content" ∈
        hidden_table_names ["docs_fts"] false [] []
          ["docs", "docs_fts", "docs_fts_content"] ∧
      "docs" ∉
        hidden_table_names ["docs_fts"] false [] []
          ["docs", "docs_fts", "docs_fts_content"]) :=
  ⟨fun _ _ _ => mem_hidden_pass, by decide, by decide, by decide⟩

/-- C10: `hidden_table_names` can return duplicates: in the propagation
pass every already-hidden table name that is itself listed as a table (every
FTS virtual table, since a name starts with itself) is appended again, so
the docs/docs_fts catalog yields each hidden name twice. -/
theorem hidden_table_names_duplicates :
    hidden_table_names ["docs_fts"] false [] []
        ["docs", "docs_fts", "docs_fts_content"] =
      ["docs_fts", "docs_fts", "docs_fts_content", "docs_fts_content"] ∧
    (hidden_table_names ["docs_fts"] false [] []
        ["docs", "docs_fts", "docs_fts_content"]).count "docs_fts" = 2 :=
  ⟨by decide, by decide⟩

/-- C5: when the engine raises, `execute` converts the error to
`QueryInterrupted` — carrying the original error, the SQL text and the
parameters — exactly when the error's args tuple equals
`("interrupted",)`; every other `OperationalError`/`DatabaseError` is
re-raised unchanged (after optional logging). -/
theorem execute_error_classification :
    ∀ (ds : DSConfig) (sql : String) (params : Params) (truncate : Bool)
      (ctl ps : Option Nat) (e : EngineError),
      (execute ds sql params truncate ctl ps (.err e) =
        if e.args = ["interrupted"] then .error (.queryInterrupted e sql params)
        else .error (.engineError e)) ∧
      (execute ds sql params truncate ctl ps (.err e) =
          .error (.queryInterrupted e sql params) ↔
        e.args = ["interrupted"]) := by
  intro ds sql params truncate ctl ps e
  have hbase : execute ds sql params truncate ctl ps (.err e) =
      if e.args = ["interrupted"] then .error (.queryInterrupted e sql params)
      else .error (.engineError e) := rfl
  refine ⟨hbase, ?_⟩
  rw [hbase]
  by_cases h : e.args = ["interrupted"] <;> simp [h]

/-- C8: `connect` opens a mutable file database with `mode=ro`, a
non-mutable file database with `immutable=1`, and for a memory database
always asks the engine for a fresh private `:memory:` instance. -/
theorem connect_modes :
    ∀ (db : Database) (p : String),
      (db.is_memory = true → db.connect = .memory) ∧
      (db.is_memory = false → db.is_mutable = true → db.path = some p →
        db.connect = .file ("file:" ++ p ++ "?mode=ro")) ∧
      (db.is_memory = false → db.is_mutable = false → db.path = some p →
        db.connect = .file ("file:" ++ p ++ "?immutable=1")) := by
  intro db p
  have hq1 : ("?" ++ "mode=ro" : String) = "?mode=ro" := rfl
  have hq2 : ("?" ++ "immutable=1" : String) = "?immutable=1" := rfl
  refine ⟨fun hm => by simp [Database.connect, hm],
    fun hm hmut hp => ?_, fun hm hmut hp => ?_⟩ <;>
    simp [Database.connect, hm, hmut, hp, String.append_assoc, hq1, hq2]

theorem connect_modes_witness :
    (Database.connect ⟨some "fixtures.db", true, false, none, none, none⟩ =
      .file ("file:" ++ "fixtures.db" ++ "?mode=ro")) ∧
    (Database.connect ⟨some "fixtures.db", false, false, none, none, none⟩ =
      .file ("file:" ++ "fixtures.db" ++ "?immutable=1")) ∧
    (Database.connect ⟨none, false, true, none, none, none⟩ = .memory) :=
  ⟨(connect_modes ⟨some "fixtures.db", true, false, none, none, none⟩
      "fixtures.db").2.1 rfl rfl rfl,
   (connect_modes ⟨some "fixtures.db", false, false, none, none, none⟩
      "fixtures.db").2.2 rfl rfl rfl,
   (connect_modes ⟨none, false, true, none, none, none⟩ "x").1 rfl⟩

/-- C9: `get_table_definition` on a name with no stored creation SQL
returns an absent result (`None`, not an empty string and not an error); on
an existing table it returns the object's creation SQL first, then every
non-null index creation SQL in catalog order, each statement terminated
with a semicolon and the statements joined by newlines. -/
theorem get_table_definition_spec :
    ∀ (index_rows : List String) (sql : String) (rest : List (Option String)),
      (get_table_definition [] index_rows = .ok none ∧
        get_table_definition [] index_rows ≠ .ok (some "") ∧
        ∀ err, get_table_definition [] index_rows ≠ .error err) ∧
      get_table_definition (some sql :: rest) index_rows =
        .ok (some (String.intercalate "\n"
          ((sql ++ ";") :: index_rows.map (fun s => s ++ ";")))) := by
  intro idx sql rest
  exact ⟨⟨rfl, by simp [get_table_definition], by simp [get_table_definition]⟩, rfl⟩

/-- Reduction of `execute` on a successful engine outcome (default page
size, i.e. `page_size=None`): the bumped cap drives the fetch/truncate
logic. -/
theorem execute_ok_reduction (ds : DSConfig) (sql : String) (params : Params)
    (truncate : Bool) (ctl : Option Nat) (desc : List String) (rows : List Row) :
    execute ds sql params truncate ctl none (.ok rows desc) =
      (if effective_cap ds.max_returned_rows ds.page_size ≠ 0 ∧ truncate then
        .ok ⟨(rows.take (effective_cap ds.max_returned_rows ds.page_size + 1)).take
              (effective_cap ds.max_returned_rows ds.page_size),
            decide ((rows.take (effective_cap ds.max_returned_rows ds.page_size + 1)).length >
              effective_cap ds.max_returned_rows ds.page_size), desc⟩
      else .ok ⟨rows, false, desc⟩) := rfl

/-- C1 counterexample: with `maxReturnedRows = pageSize = 5` and
`truncate=true`, a 6-row table comes back with all 6 rows and
`truncated=false` — not 5 rows with `truncated=true` as the claim states. -/
theorem execute_cap_bump_counterexample :
    (execute ⟨1000, 5, 5⟩ "select * from t" none true none none
        (.ok [[1], [2], [3], [4], [5], [6]] [])).map
      (fun r => (r.rows.length, r.truncated)) = .ok (6, false) := rfl

/-- C1 amended: when `maxReturnedRows == pageSize == 5` the effective
internal cap is 6, so with `truncate=true` a table of at most 6 rows (in
particular exactly 5) returns all its rows with `truncated=false`, while a
table of 7 or more rows returns exactly the first 6 rows with
`truncated=true`. -/
theorem execute_cap_bump (tl : Nat) (sql : String) (params : Params)
    (desc : List String) (rows : List Row) :
    (rows.length ≤ 6 →
      execute ⟨tl, 5, 5⟩ sql params true none none (.ok rows desc) =
        .ok ⟨rows, false, desc⟩) ∧
    (7 ≤ rows.length →
      execute ⟨tl, 5, 5⟩ sql params true none none (.ok rows desc) =
        .ok ⟨rows.take 6, true, desc⟩) := by
  have hred := execute_ok_reduction ⟨tl, 5, 5⟩ sql params true none desc rows
  have hcap : effective_cap (5 : Nat) 5 = 6 := rfl
  rw [hcap] at hred
  constructor
  · intro hle
    have h7 : rows.take 7 = rows := List.take_of_length_le (by omega)
    have h6 : rows.take 6 = rows := List.take_of_length_le (by omega)
    rw [hred, if_pos ⟨by omega, rfl⟩, h7, h6, decide_eq_false (by omega)]
  · intro hge
    rw [hred, if_pos ⟨by omega, rfl⟩, List.take_take]
    norm_num
    omega

theorem execute_cap_bump_witness :
    (execute ⟨1000, 5, 5⟩ "select * from t" none true none none
        (.ok [[1], [2], [3], [4], [5]] []) =
      .ok ⟨[[1], [2], [3], [4], [5]], false, []⟩) ∧
    (execute ⟨1000, 5, 5⟩ "select * from t" none true none none
        (.ok [[1], [2], [3], [4], [5], [6], [7]] []) =
      .ok ⟨[[1], [2], [3], [4], [5], [6]], true, []⟩) :=
  ⟨(execute_cap_bump 1000 "select * from t" none []
      [[1], [2], [3], [4], [5]]).1 (by decide),
   (execute_cap_bump 1000 "select * from t" none []
      [[1], [2], [3], [4], [5], [6], [7]]).2 (by decide)⟩

/-- C7: with `truncate=true` and a configured cap — `cap` being the
configured maximum bumped by one when it equals the page size — `execute`
keeps exactly the first `cap` rows of the (at most `cap+1` rows) fetch and
marks the result truncated exactly when more than `cap` rows existed; with
`truncate=false` or a zero cap it returns all rows untruncated.  In
particular `maxReturnedRows=5` (page size 100) gives 5 rows and
`truncated=true` on a 10-row table and 3 rows with `truncated=false` on a
3-row table. -/
theorem execute_truncation (tl m ps : Nat) (sql : String) (params : Params)
    (truncate : Bool) (desc : List String) (rows : List Row) :
    (truncate = true → effective_cap m ps ≠ 0 →
      execute ⟨tl, m, ps⟩ sql params truncate none none (.ok rows desc) =
        .ok ⟨rows.take (effective_cap m ps),
            decide (rows.length > effective_cap m ps), desc⟩) ∧
    (truncate = false ∨ effective_cap m ps = 0 →
      execute ⟨tl, m, ps⟩ sql params truncate none none (.ok rows desc) =
        .ok ⟨rows, false, desc⟩) := by
  have hred := execute_ok_reduction ⟨tl, m, ps⟩ sql params truncate none desc rows
  constructor
  · intro ht hc
    have h1 : (rows.take (effective_cap m ps + 1)).take (effective_cap m ps) =
        rows.take (effective_cap m ps) := by
      rw [List.take_take]
      congr 1
      omega
    have h2 : decide ((rows.take (effective_cap m ps + 1)).length > effective_cap m ps) =
        decide (rows.length > effective_cap m ps) := by
      rw [decide_eq_decide, List.length_take]
      omega
    rw [hred, if_pos ⟨hc, ht⟩, h1, h2]
  · intro h
    rw [hred, if_neg]
    rintro ⟨hc, ht⟩
    rcases h with h | h
    · rw [h] at ht; exact Bool.false_ne_true ht
    · exact hc h

theorem execute_truncation_witness :
    (execute ⟨1000, 5, 100⟩ "select * from t" none true none none
        (.ok [[1], [2], [3], [4], [5], [6], [7], [8], [9], [10]] []) =
      .ok ⟨[[1], [2], [3], [4], [5]], true, []⟩) ∧
    (execute ⟨1000, 5, 100⟩ "select * from t" none true none none
        (.ok [[1], [2], [3]] []) =
      .ok ⟨[[1], [2], [3]], false, []⟩) ∧
    (execute ⟨1000, 5, 100⟩ "select * from t" none false none none
        (.ok [[1], [2], [3], [4], [5], [6], [7], [8], [9], [10]] []) =
      .ok ⟨[[1], [2], [3], [4], [5], [6], [7], [8], [9], [10]], false, []⟩) :=
  ⟨(execute_truncation 1000 5 100 "select * from t" none true []
      [[1], [2], [3], [4], [5], [6], [7], [8], [9], [10]]).1 rfl (by decide),
   (execute_truncation 1000 5 100 "select * from t" none true []
      [[1], [2], [3]]).1 rfl (by decide),
   (execute_truncation 1000 5 100 "select * from t" none false []
      [[1], [2], [3], [4], [5], [6], [7], [8], [9], [10]]).2 (Or.inl rfl)⟩

/-- C2 counterexample: on columns `(title, name)` the code returns `title`
(the first name/title column in column order, not preferring `name`), and on
columns `(id, pk)` it raises an `IndexError` (the filtered list is empty and
is subscripted with `[0]`) instead of returning `pk`. -/
theorem label_column_counterexample :
    label_column_for_table none ["title", "name"] = .ok (some "title") ∧
    label_column_for_table none ["id", "pk"] = .error .indexError :=
  ⟨rfl, rfl⟩

/-- C2 amended: with no externally configured label column,
`label_column_for_table` returns the first column in column order that is
literally named `name` or `title` (column order decides a tie, not a
preference for `name`); otherwise, if the table has exactly two columns and
at least one of them is named `id` or `pk`, it returns the other column when
exactly one of the two is `id`/`pk`, and raises an `IndexError` when both
are (as on `(id, pk)`); otherwise no label column.  In particular
`(id, name)` gives `name`, `(pk, title)` gives `title`, `(id, a, b)` gives
none, and for any other column name `x`, `(id, x)` gives `x` and `(x, pk)`
gives `x`. -/
theorem label_column_resolution :
    (label_column_for_table none ["id", "name"] = .ok (some "name") ∧
      label_column_for_table none ["pk", "title"] = .ok (some "title") ∧
      label_column_for_table none ["id", "a", "b"] = .ok none ∧
      label_column_for_table none ["title", "name"] = .ok (some "title") ∧
      label_column_for_table none ["id", "pk"] = .error .indexError) ∧
    (∀ x : String, x ≠ "id" → x ≠ "pk" → x ≠ "name" → x ≠ "title" →
      label_column_for_table none ["id", x] = .ok (some x) ∧
      label_column_for_table none [x, "pk"] = .ok (some x)) := by
  constructor
  · exact ⟨rfl, rfl, rfl, rfl, rfl⟩
  · intro x h1 h2 h3 h4
    have e1 : (x == "id") = false := beq_eq_false_iff_ne.mpr h1
    have e2 : (x == "pk") = false := beq_eq_false_iff_ne.mpr h2
    have e3 : (x == "name") = false := beq_eq_false_iff_ne.mpr h3
    have e4 : (x == "title") = false := beq_eq_false_iff_ne.mpr h4
    constructor <;>
      simp [label_column_for_table, List.filter, e1, e2, e3, e4]

theorem label_column_resolution_witness :
    label_column_for_table none ["id", "score"] = .ok (some "score") ∧
    label_column_for_table none ["score", "pk"] = .ok (some "score") :=
  label_column_resolution.2 "score" (by decide) (by decide) (by decide) (by decide)

/-- Cache hit of `table_counts`: a non-mutable handle with a populated
`cached_table_counts` returns the cached map unchanged and leaves the handle
unchanged. -/
theorem table_counts_cached (db : Database) (ds : DSConfig) (limit : Nat)
    (tables : List String) (outcomes : String → EngineResult)
    (m : List (String × Option Int))
    (h1 : db.is_mutable = false) (h2 : db.cached_table_counts = some m) :
    db.table_counts ds limit tables outcomes = .ok (m, db) := by
  simp [Database.table_counts, h1, h2]

/-- `table_counts` only ever writes `cached_table_counts`: every other field
of the handle is unchanged by a successful call. -/
theorem table_counts_preserves (db : Database) (ds : DSConfig) (limit : Nat)
    (tables : List String) (outcomes : String → EngineResult)
    (res : List (String × Option Int)) (db' : Database)
    (h : db.table_counts ds limit tables outcomes = .ok (res, db')) :
    db'.hash = db.hash ∧ db'.cached_size = db.cached_size ∧
      db'.path = db.path ∧ db'.is_mutable = db.is_mutable ∧
      db'.is_memory = db.is_memory := by
  unfold Database.table_counts at h
  split at h
  · simp only [Except.ok.injEq, Prod.mk.injEq] at h
    obtain ⟨-, rfl⟩ := h
    exact ⟨rfl, rfl, rfl, rfl, rfl⟩
  · split at h
    · simp at h
    · split at h
      · simp only [Except.ok.injEq, Prod.mk.injEq] at h
        obtain ⟨-, rfl⟩ := h
        exact ⟨rfl, rfl, rfl, rfl, rfl⟩
      · simp only [Except.ok.injEq, Prod.mk.injEq] at h
        obtain ⟨-, rfl⟩ := h
        exact ⟨rfl, rfl, rfl, rfl, rfl⟩

/-- C3 counterexample: a non-mutable *memory* database constructed with a
path is hash- and size-cached at construction — the constructor checks only
mutability, never the memory flag, so "populated only for non-mutable,
non-memory databases" and "a memory instance is never hash-cached" both
fail. -/
theorem init_memory_hash_counterexample :
    (Database.init ⟨none⟩ ⟨fun _ => "abc123", fun _ => 42, fun q => q⟩
        (some "x.db") false true).map
      (fun db => (db.is_memory, db.hash, db.cached_size)) =
      .ok (true, some "abc123", some 42) := rfl

/-- C3 amended: `hash` and `cached_size` are populated at construction for
exactly the non-mutable databases, regardless of the memory flag
(constructing a non-mutable database without a path fails with a
`TypeError`); a mutable database gets none of the cached fields;
`cached_table_counts` is seeded at construction only in the non-mutable
case (from the external inspect data); a successful `table_counts` call
never changes `hash` or `cached_size`, and a non-mutable handle with a
populated count cache returns it unchanged; a memory instance's `size`
property always reports 0. -/
theorem init_cache_population (ctx : DSContext) (fs : FileSystem)
    (path : Option String) (p : String) (is_memory : Bool) :
    (∃ counts, Database.init ctx fs (some p) false is_memory =
        .ok ⟨some p, false, is_memory, some (fs.inspect_hash p),
          some (fs.st_size p), counts⟩) ∧
    (Database.init ctx fs path true is_memory =
      .ok ⟨path, true, is_memory, none, none, none⟩) ∧
    (Database.init ctx fs none false is_memory = .error .typeError) ∧
    (∀ db : Database, db.is_memory = true → db.size fs = .ok 0) ∧
    (∀ (db : Database) (ds : DSConfig) (limit : Nat) (tables : List String)
        (outcomes : String → EngineResult)
        (res : List (String × Option Int)) (db' : Database),
      db.table_counts ds limit tables outcomes = .ok (res, db') →
        db'.hash = db.hash ∧ db'.cached_size = db.cached_size) ∧
    (∀ (db : Database) (ds : DSConfig) (limit : Nat) (tables : List String)
        (outcomes : String → EngineResult) (m : List (String × Option Int)),
      db.is_mutable = false → db.cached_table_counts = some m →
        db.table_counts ds limit tables outcomes = .ok (m, db)) := by
  refine ⟨⟨_, rfl⟩, rfl, rfl, ?_, ?_, ?_⟩
  · intro db h
    simp [Database.size, h]
  · intro db ds limit tables outcomes res db' h
    exact ⟨(table_counts_preserves db ds limit tables outcomes res db' h).1,
      (table_counts_preserves db ds limit tables outcomes res db' h).2.1⟩
  · intro db ds limit tables outcomes m h1 h2
    exact table_counts_cached db ds limit tables outcomes m h1 h2

theorem init_cache_population_witness :
    (Database.init ⟨none⟩ ⟨fun _ => "abc123", fun _ => 42, fun q => q⟩ none
        false false = .error .typeError) ∧
    (Database.size ⟨fun _ => "abc123", fun _ => 42, fun q => q⟩
        ⟨none, false, true, none, none, none⟩ = .ok 0) ∧
    (Database.table_counts
        ⟨some "f.db", false, false, none, none, some [("t", some 3)]⟩
        ⟨1000, 100, 50⟩ 10 [] (fun _ => .err ⟨[]⟩) =
      .ok ([("t", some 3)],
        ⟨some "f.db", false, false, none, none, some [("t", some 3)]⟩)) :=
  ⟨(init_cache_population ⟨none⟩ ⟨fun _ => "abc123", fun _ => 42, fun q => q⟩
      none "p" false).2.2.1,
   (init_cache_population ⟨none⟩ ⟨fun _ => "abc123", fun _ => 42, fun q => q⟩
      none "p" false).2.2.2.1 ⟨none, false, true, none, none, none⟩ rfl,
   (init_cache_population ⟨none⟩ ⟨fun _ => "abc123", fun _ => 42, fun q => q⟩
      none "p" false).2.2.2.2.2
      ⟨some "f.db", false, false, none, none, some [("t", some 3)]⟩
      ⟨1000, 100, 50⟩ 10 [] (fun _ => .err ⟨[]⟩) [("t", some 3)] rfl rfl⟩

/-- Well-formedness of an engine outcome for a `count(*)` query: when the
engine succeeds, the result has a first row with a first column (which
`count(*)` always produces). -/
def count_ok (r : EngineResult) : Prop :=
  match r with
  | .ok rows _ => (rows.head?.bind (fun row => row.head?)).isSome = true
  | .err _ => True

/-- The value `table_counts` records for one table: `None` when the count
query failed with a caught error, the count otherwise. -/
def count_query_entry (ds : DSConfig) (limit : Nat)
    (outcomes : String → EngineResult) (t : String) : Option Int :=
  match execute ds (count_sql t) none false (some limit) none (outcomes t) with
  | .error _ => none
  | .ok res => res.rows.head?.bind (fun row => row.head?)

/-- The per-table loop of `table_counts` never fails on well-formed engine
outcomes: it appends one entry per table, `None` for tables whose count
query raised. -/
theorem table_counts_loop_spec (ds : DSConfig) (limit : Nat)
    (outcomes : String → EngineResult) :
    ∀ (tables : List String) (acc : List (String × Option Int)),
      (∀ t ∈ tables, count_ok (outcomes t)) →
      table_counts_loop ds limit outcomes tables acc =
        .ok (acc ++ tables.map (fun t => (t, count_query_entry ds limit outcomes t))) := by
  intro tables
  induction tables with
  | nil =>
    intro acc h
    simp [table_counts_loop]
  | cons t rest ih =>
    intro acc h
    have ht : count_ok (outcomes t) := h t (List.mem_cons_self t rest)
    have hrest : ∀ u ∈ rest, count_ok (outcomes u) :=
      fun u hu => h u (List.mem_cons_of_mem t hu)
    cases houtcome : outcomes t with
    | err e =>
      by_cases hargs : e.args = ["interrupted"]
      · have hstep : table_counts_loop ds limit outcomes (t :: rest) acc =
            table_counts_loop ds limit outcomes rest (acc ++ [(t, none)]) := by
          simp [table_counts_loop, execute, houtcome, hargs]
        rw [hstep, ih (acc ++ [(t, none)]) hrest]
        simp [count_query_entry, execute, houtcome, hargs]
      · have hstep : table_counts_loop ds limit outcomes (t :: rest) acc =
            table_counts_loop ds limit outcomes rest (acc ++ [(t, none)]) := by
          simp [table_counts_loop, execute, houtcome, hargs]
        rw [hstep, ih (acc ++ [(t, none)]) hrest]
        simp [count_query_entry, execute, houtcome, hargs]
    | ok rows desc =>
      rw [houtcome] at ht
      have hsome : (rows.head?.bind (fun row => row.head?)).isSome = true := ht
      obtain ⟨n, hn⟩ := Option.isSome_iff_exists.mp hsome
      have hstep : table_counts_loop ds limit outcomes (t :: rest) acc =
          table_counts_loop ds limit outcomes rest (acc ++ [(t, some n)]) := by
        simp [table_counts_loop, execute, houtcome, hn]
      rw [hstep, ih (acc ++ [(t, some n)]) hrest]
      simp [count_query_entry, execute, houtcome, hn]

/-- C6: `table_counts` never fails because of a per-table failure — any
caught error (interruption or engine error) for one table records that
table's count as `None` — and the returned map has exactly one entry per
table name in order; for a non-mutable handle the full map is written to
`cached_table_counts`, and a non-mutable handle whose cache is already
populated returns the cached map unchanged on subsequent calls.
(The well-formedness hypothesis says only that a *successful* count query
returned at least one row with one column, which `count(*)` guarantees.) -/
theorem table_counts_robust (db : Database) (ds : DSConfig) (limit : Nat)
    (tables : List String) (outcomes : String → EngineResult)
    (hwf : ∀ t ∈ tables, count_ok (outcomes t)) :
    (¬(db.is_mutable = false ∧ db.cached_table_counts ≠ none) →
      db.table_counts ds limit tables outcomes =
        .ok (tables.map (fun t => (t, count_query_entry ds limit outcomes t)),
          if db.is_mutable = false then
            { db with
                cached_table_counts := some
                  (tables.map (fun t => (t, count_query_entry ds limit outcomes t))) }
          else db)) ∧
    (∀ t e, outcomes t = .err e → count_query_entry ds limit outcomes t = none) ∧
    (∀ m, db.is_mutable = false → db.cached_table_counts = some m →
      db.table_counts ds limit tables outcomes = .ok (m, db)) := by
  refine ⟨?_, ?_, ?_⟩
  · intro hnc
    unfold Database.table_counts
    rw [if_neg hnc, table_counts_loop_spec ds limit outcomes tables [] hwf]
    by_cases hmut : db.is_mutable = false
    · rw [if_pos hmut]
      simp [hmut]
    · rw [if_neg hmut]
      simp [hmut]
  · intro t e he
    by_cases hargs : e.args = ["interrupted"] <;>
      simp [count_query_entry, execute, he, hargs]
  · intro m h1 h2
    exact table_counts_cached db ds limit tables outcomes m h1 h2

theorem table_counts_robust_witness :
    Database.table_counts ⟨some "f.db", true, false, none, none, none⟩
      ⟨1000, 100, 50⟩ 10 ["a", "b"]
      (fun t => if t = "a" then .ok [[10]] [] else .err ⟨["interrupted"]⟩) =
    .ok ([("a", some 10), ("b", none)],
      ⟨some "f.db", true, false, none, none, none⟩) :=
  (table_counts_robust ⟨some "f.db", true, false, none, none, none⟩
    ⟨1000, 100, 50⟩ 10 ["a", "b"]
    (fun t => if t = "a" then .ok [[10]] [] else .err ⟨["interrupted"]⟩)
    (by
      intro t htmem
      rcases List.mem_cons.mp htmem with rfl | htmem2
      · exact rfl
      · rcases List.mem_cons.mp htmem2 with rfl | htmem3
        · exact trivial
        · exact absurd htmem3 (List.not_mem_nil _))).1
    (by simp)

theorem hidden_pass_single_level_witness :
    "docs_fts_content" ∈
        hidden_pass ["docs", "docs_fts", "docs_fts_content"] ["docs_fts"] ↔
      "docs_fts_content" ∈ ["docs_fts"] ∨
        ("docs_fts_content" ∈ ["docs", "docs_fts", "docs_fts_content"] ∧
          ∃ h ∈ ["docs_fts"], startswith "docs_fts_content" h = true) :=
  hidden_pass_single_level.1 "docs_fts_content"
    ["docs", "docs_fts", "docs_fts_content"] ["docs_fts"]

theorem execute_error_classification_witness :
    execute ⟨1000, 100, 50⟩ "select 1" none false none none
        (.err ⟨["interrupted"]⟩) =
      .error (.queryInterrupted ⟨["interrupted"]⟩ "select 1" none) :=
  (execute_error_classification ⟨1000, 100, 50⟩ "select 1" none false none
    none ⟨["interrupted"]⟩).2.mpr rfl

theorem get_table_definition_spec_witness :
    get_table_definition [] ["create index i on t (a)"] = .ok none ∧
    get_table_definition [some "create table docs (id, title)"]
        ["create index docs_title on docs (title)"] =
      .ok (some "create table docs (id, title);\ncreate index docs_title on docs (title);") :=
  ⟨(get_table_definition_spec ["create index i on t (a)"] "x" []).1.1,
   (get_table_definition_spec ["create index docs_title on docs (title)"]
      "create table docs (id, title)" []).2⟩

end Datasette
